import Mathlib

/-!
Shallow embedding of the trading bot in `src/main.py`.

Monetary and price quantities are embedded as rationals (`ℚ`); the Python
floats carry exact decimal constants here.  A pandas `NaN` in the `atr`
column is embedded as `Option ℚ` with `none` standing for `NaN`, since
`calculate_coefficient` explicitly tests `pd.isna` on that column.
External calls (ticker, OHLCV fetch, price lookups) are embedded as
already-resolved values: a successful per-asset evaluation is a `Fetch`
record, and the `try/except` of `Trading_Bot.strategy` is the `Option Fetch`
argument of `strategy` (`none` = any exception while evaluating the asset).

Naming: the source column `std_volavolatility_ratio` is embedded as the
field `volBase`, and `objective_volatility_ratio` as `objVol`.
-/

namespace TradingBot

/-- The `action` string of a decision dict: `'BUY'`, `'SELL'` or `'NULL'`. -/
inductive Action where
  | BUY : Action
  | SELL : Action
  | NULL : Action
deriving DecidableEq, Repr

/-- The last row of the indicator dataframe built by
`calculate_technical_indicators`, restricted to the columns that
`calculate_max_position`, `calculate_coefficient` and `strategy` read.
`atr` is `Option ℚ`: `none` embeds a pandas `NaN` (`pd.isna`). -/
structure Row where
  close : ℚ
  shortMA : ℚ
  longMA : ℚ
  stdV : ℚ
  /-- the `std_volavolatility_ratio` column -/
  volBase : ℚ
  atr : Option ℚ
deriving DecidableEq, Repr

/-- The `SpotWallet` part of a balance snapshot: a finite map
coin ↦ (Free, Lock), embedded as an association list (Python dict keys are
unique; lookups below take the first match, matching `dict.get`). -/
structure Balance where
  wallet : List (String × ℚ × ℚ)
deriving DecidableEq, Repr

/-- `balance.get('SpotWallet',{}).get(coin,{}).get('Free',0)`. -/
def freeOf (b : Balance) (coin : String) : ℚ :=
  match b.wallet.find? (fun e => e.1 == coin) with
  | some e => e.2.1
  | none => 0

/-- `balance.get('SpotWallet',{}).get(coin,{}).get('Lock',0)`. -/
def lockOf (b : Balance) (coin : String) : ℚ :=
  match b.wallet.find? (fun e => e.1 == coin) with
  | some e => e.2.2
  | none => 0

/-- `Free + Lock` of one coin, as read twice by `strategy` (line 317). -/
def heldAmount (b : Balance) (coin : String) : ℚ :=
  freeOf b coin + lockOf b coin

/-- One iteration of the `for coin, balance_info in spot_wallet.items()`
loop of `get_total_asset` (main.py lines 159-167): skip `USD` and `USDT`,
and for a positive `Free + Lock` amount add `amount * price` when the
ticker lookup succeeds (on failure only a message is printed). -/
def totalAssetStep (lookup : String → Option ℚ) (acc : ℚ)
    (e : String × ℚ × ℚ) : ℚ :=
  if e.1 ≠ "USD" ∧ e.1 ≠ "USDT" then
    let amt := e.2.1 + e.2.2
    if 0 < amt then
      match lookup e.1 with
      | some p => acc + amt * p
      | none => acc
    else acc
  else acc

/-- `get_total_asset` (main.py lines 156-169).  `lookup coin` embeds the
`get_ticker(f"{coin}/USD")` call: `some price` when the ticker call
succeeds with `Success`, `none` when it fails.  The Python loop
accumulates into `total_usd`, seeded with the USD entry's `Free + Lock`. -/
def get_total_asset (b : Balance) (lookup : String → Option ℚ) : ℚ :=
  b.wallet.foldl (totalAssetStep lookup) (freeOf b "USD" + lockOf b "USD")

/-- Valuation as worded by the spec (§4.4): cash at par plus, for EVERY
other held asset (any coin other than the USD cash balance) with positive
`Free + Lock` whose price lookup succeeds, quantity times price.  Written
from the spec sentence, for comparison with `get_total_asset`. -/
def totalCapitalSpec (b : Balance) (lookup : String → Option ℚ) : ℚ :=
  freeOf b "USD" + lockOf b "USD" +
    (b.wallet.map
      (fun e =>
        if e.1 ≠ "USD" ∧ 0 < e.2.1 + e.2.2 then
          match lookup e.1 with
          | some p => (e.2.1 + e.2.2) * p
          | none => 0
        else 0)).sum

/-- The contribution of one wallet entry to the amended spec-side
valuation: priced only when the coin is neither `USD` nor `USDT`, the
held `Free + Lock` amount is positive, and the lookup succeeds. -/
def assetContribution (lookup : String → Option ℚ) (e : String × ℚ × ℚ) : ℚ :=
  if e.1 ≠ "USD" ∧ e.1 ≠ "USDT" ∧ 0 < e.2.1 + e.2.2 then
    match lookup e.1 with
    | some p => (e.2.1 + e.2.2) * p
    | none => 0
  else 0

/-- Amended spec-side valuation: the code additionally excludes `USDT`
from pricing (it contributes nothing, and is not valued at par either). -/
def totalCapitalSpecAmended (b : Balance) (lookup : String → Option ℚ) : ℚ :=
  freeOf b "USD" + lockOf b "USD" +
    (b.wallet.map (assetContribution lookup)).sum

/-- `calculate_max_position` (main.py lines 229-238), reading the last row
of the dataframe.  `risk` is the `risk_coefficient` parameter
(`strategy` calls it with its default `0.05`). -/
def calculate_max_position (row : Row) (total_capital risk : ℚ) : ℚ :=
  let current_price := row.close
  let current_std := if row.stdV = 0 then current_price * 0.001 else row.stdV
  let volatility_ratio := current_std / current_price
  total_capital * risk / (volatility_ratio / row.volBase)

/-- `calculate_coefficient` (main.py lines 240-253).  Returns `0` when the
latest `atr` is `NaN` (`none`) or `0`.  The source also computes a floored
`current_std` (`price * 0.01` when `stdV == 0`) which it never uses; it is
reproduced here as the unused `floored_std`. -/
def calculate_coefficient (row : Row) : ℚ :=
  match row.atr with
  | none => 0
  | some atr =>
    if atr = 0 then 0
    else
      let ma_diff := row.shortMA - row.longMA
      let _floored_std := if row.stdV = 0 then row.close * 0.01 else row.stdV
      let objVol : ℚ := 0.02 / row.volBase
      let objVol := max 0.9 (min 1.11 objVol)
      objVol * ma_diff / atr

/-- The decision dict built by `strategy`.  Keys that exist only on the
successful path (`balance`, `price`, `balance_USD`, `sell_price`,
`spending`) are `Option ℚ`, `none` meaning the key is absent, as in the
`except` branch's dict. -/
structure Decision where
  target : String
  action : Action
  amount : ℚ
  coefficient : ℚ
  /-- the `Max_position` key -/
  maxPosition : ℚ
  /-- the `balance` key (held Free+Lock of the asset) -/
  heldBalance : Option ℚ
  price : Option ℚ
  balanceUSD : Option ℚ
  sellPrice : Option ℚ
  spending : Option ℚ
deriving DecidableEq, Repr

/-- The neutral decision of the `except` branch (main.py lines 346-352). -/
def neutralDecision (target : String) : Decision :=
  { target := target
    action := Action.NULL
    amount := 0
    coefficient := 0
    maxPosition := 0
    heldBalance := none
    price := none
    balanceUSD := none
    sellPrice := none
    spending := none }

/-- The data a successful pass through `strategy`'s `try` block obtains
from the outside world: the ticker price, the last indicator row of the
OHLCV dataframe, and the portfolio value `get_total_asset(balance)`. -/
structure Fetch where
  price : ℚ
  row : Row
  totalCapital : ℚ
deriving DecidableEq, Repr

/-- The successful path of `Trading_Bot.strategy` (main.py lines 299-342),
mirroring the source's sequence of dict updates:
initial dict (action `NULL`, amount `|max_position*coefficient|/price`),
then `coefficient ↦ min(5, coefficient)`, then the BUY branch
(which tests the RAW coefficient), then the unconditional
`sell_price = price + 3*stdV`, then the SELL branch, then the
`amount == 0 → NULL` override, then the final `spending` assignment. -/
def strategySuccess (target : String) (bal : Balance) (threshold : ℚ)
    (safety_coefficient : ℚ) (f : Fetch) : Decision :=
  let price := f.price
  let max_position := calculate_max_position f.row f.totalCapital 0.05
  let coefficient := calculate_coefficient f.row
  let held := heldAmount bal target
  let current_USD := freeOf bal "USD"
  let amount0 := |max_position * coefficient| / price
  let cappedCoefficient := min 5 coefficient
  let buyPair :=
    if coefficient > threshold + 0.1 then
      (Action.BUY,
        min (current_USD * safety_coefficient / price)
          (|max_position * coefficient| / price))
    else (Action.NULL, amount0)
  let sell_price := price + 3 * f.row.stdV
  let sellPair :=
    if coefficient < threshold then (Action.SELL, held) else buyPair
  let finalAction := if sellPair.2 = 0 then Action.NULL else sellPair.1
  { target := target
    action := finalAction
    amount := sellPair.2
    coefficient := cappedCoefficient
    maxPosition := max_position
    heldBalance := some held
    price := some price
    balanceUSD := some (held * price)
    sellPrice := some sell_price
    spending := some (sellPair.2 * price) }

/-- `Trading_Bot.strategy`: the `try/except`.  `fetch = none` embeds any
exception while evaluating the asset (failed ticker leaving `price`
unbound, failed or empty OHLCV fetch, indicator errors, ...): the
`except` branch returns the neutral decision. -/
def strategy (target : String) (bal : Balance) (threshold : ℚ)
    (safety_coefficient : ℚ) (fetch : Option Fetch) : Decision :=
  match fetch with
  | some f => strategySuccess target bal threshold safety_coefficient f
  | none => neutralDecision target

/-- `sellpoint = 0` seeding in `Trading_Bot.run` (main.py line 261). -/
def initialSellpoint : ℚ := 0

/-- The first sort in `run` (line 274):
`decision_list.sort(key = lambda x: -(x.get('coefficient')))`,
i.e. stable sort by coefficient descending. -/
def sortByCoefDesc (ds : List Decision) : List Decision :=
  ds.mergeSort (fun a b => decide (b.coefficient ≤ a.coefficient))

/-- The threshold update in `run` (line 275):
`sellpoint = max(0.5, decision_list[2].get('coefficient', 0) * 0.95)`.
When fewer than 3 decisions exist the Python code would raise; `getD`'s
default is irrelevant under the ≥ 3 hypothesis of the claims. -/
def nextSellpoint (ds : List Decision) : ℚ :=
  max 0.5 (((sortByCoefDesc ds).getD 2 (neutralDecision "")).coefficient * 0.95)

/-- Spec-side "third-highest coefficient": index 2 of the descending sort
of the coefficient multiset. -/
def thirdHighest (cs : List ℚ) : ℚ :=
  (cs.mergeSort (fun a b => decide (b ≤ a))).getD 2 0

/-- The comparison underlying the execution-order sort in `run` (line 276):
Python's ascending lexicographic order on the key tuple
`(action == 'NULL', action == 'BUY', -abs(coefficient))`
with `False < True`. -/
def execLe (a b : Decision) : Bool :=
  let aN := decide (a.action = Action.NULL)
  let bN := decide (b.action = Action.NULL)
  let aB := decide (a.action = Action.BUY)
  let bB := decide (b.action = Action.BUY)
  (!aN && bN) ||
    (aN == bN &&
      ((!aB && bB) ||
        (aB == bB && decide (-|a.coefficient| ≤ -|b.coefficient|))))

/-- The execution-order re-sort of the decision list (line 276). -/
def execOrder (ds : List Decision) : List Decision :=
  ds.mergeSort execLe

/-- C4's ordering property for a pair in list order (`a` before `b`). -/
def execAfter (a b : Decision) : Prop :=
  (a.action = Action.NULL → b.action = Action.NULL) ∧
  ¬(a.action = Action.BUY ∧ b.action = Action.SELL) ∧
  (a.action = b.action → |b.coefficient| ≤ |a.coefficient|)

theorem totalAssetStep_eq (lookup : String → Option ℚ) (acc : ℚ)
    (e : String × ℚ × ℚ) :
    totalAssetStep lookup acc e = acc + assetContribution lookup e := by
  unfold totalAssetStep assetContribution
  by_cases h1 : e.1 = "USD" <;> by_cases h2 : e.1 = "USDT" <;>
    by_cases h3 : 0 < e.2.1 + e.2.2 <;>
      simp [h1, h2, h3] <;> (cases lookup e.1 <;> simp [add_comm])

theorem foldl_totalAssetStep (lookup : String → Option ℚ) :
    ∀ (l : List (String × ℚ × ℚ)) (acc : ℚ),
      l.foldl (totalAssetStep lookup) acc =
        acc + (l.map (assetContribution lookup)).sum := by
  intro l
  induction l with
  | nil => intro acc; simp
  | cons e l ih =>
    intro acc
    simp [List.foldl_cons, ih, totalAssetStep_eq]
    ring

/-- C7: the portfolio valuation, as the spec words it (cash at par plus
priced contributions of ALL other held assets), disagrees with
`get_total_asset` on a wallet holding USDT: the code skips USDT entirely,
so a wallet {USD: 100 free, USDT: 50 free} with every lookup returning
price 1 is valued at 100 by the code but 150 by the spec's formula. -/
theorem c7_counterexample :
    get_total_asset ⟨[("USD", 100, 0), ("USDT", 50, 0)]⟩ (fun _ => some 1) ≠
      totalCapitalSpec ⟨[("USD", 100, 0), ("USDT", 50, 0)]⟩ (fun _ => some 1) := by
  norm_num [get_total_asset, totalAssetStep, totalCapitalSpec, freeOf, lockOf]
  decide

/-- C7 (amended): `get_total_asset` equals the cash balance's
`Free + Lock` at par plus, for every held asset other than USD AND USDT
with positive `Free + Lock` whose price lookup succeeds, that quantity
times its price; a failed lookup contributes nothing and valuation
continues. -/
theorem c7_total_asset_amended :
    ∀ (b : Balance) (lookup : String → Option ℚ),
      get_total_asset b lookup = totalCapitalSpecAmended b lookup := by
  intro b lookup
  unfold get_total_asset totalCapitalSpecAmended
  exact foldl_totalAssetStep lookup b.wallet _

/-- C8: whenever evaluating an asset fails anywhere inside `strategy`'s
`try` block (embedded as `fetch = none`), `strategy` returns the neutral
decision: action `NULL`, amount `0`, coefficient `0`, `Max_position` `0`,
instead of propagating the exception. -/
theorem c8_neutral_on_failure :
    ∀ (t : String) (bal : Balance) (thr sc : ℚ),
      strategy t bal thr sc none = neutralDecision t ∧
      (strategy t bal thr sc none).action = Action.NULL ∧
      (strategy t bal thr sc none).amount = 0 ∧
      (strategy t bal thr sc none).coefficient = 0 ∧
      (strategy t bal thr sc none).maxPosition = 0 := by
  intro t bal thr sc
  refine ⟨rfl, ?_, ?_, ?_, ?_⟩ <;> simp [strategy, neutralDecision]

/-- C9: `calculate_max_position` returns
`totalCapital * riskCoefficient / ((stdV' / price) / volRatio)` with
`stdV'` floored at `price * 0.001` when `stdV = 0`; in particular for
`stdV = 0` the result is the one obtained by substituting
`stdV = price * 0.001`. -/
theorem c9_max_position :
    ∀ (row : Row) (capital risk : ℚ),
      calculate_max_position row capital risk =
        capital * risk /
          (((if row.stdV = 0 then row.close * 0.001 else row.stdV) /
            row.close) / row.volBase) ∧
      (row.stdV = 0 →
        calculate_max_position row capital risk =
          calculate_max_position { row with stdV := row.close * 0.001 }
            capital risk) := by
  intro row capital risk
  constructor
  · rfl
  · intro h
    unfold calculate_max_position
    simp only [h, if_pos]
    split <;> rfl

/-- C9 witness: the theorem applied to a concrete row with `stdV = 0`. -/
theorem c9_max_position_witness :
    calculate_max_position ⟨2, 0, 0, 0, 1, none⟩ 100 0.05 =
      100 * 0.05 /
        (((if (0 : ℚ) = 0 then 2 * 0.001 else 0) / 2) / 1) ∧
    calculate_max_position ⟨2, 0, 0, 0, 1, none⟩ 100 0.05 =
      calculate_max_position ⟨2, 0, 0, 2 * 0.001, 1, none⟩ 100 0.05 :=
  ⟨(c9_max_position ⟨2, 0, 0, 0, 1, none⟩ 100 0.05).1,
    (c9_max_position ⟨2, 0, 0, 0, 1, none⟩ 100 0.05).2 rfl⟩

/-- C5: the claim that only BUY decisions carry `sell_price` is false:
on the successful path the source assigns `sell_price` unconditionally
(main.py line 331), so this concrete NULL decision carries one. -/
theorem c5_counterexample :
    (strategy "BTC" ⟨[("USD", 10000, 0)]⟩ 0.95 0.4
        (some ⟨1, ⟨1, 1, 0, 1, 1/50, some 1⟩, 1000⟩)).action ≠ Action.BUY ∧
    (strategy "BTC" ⟨[("USD", 10000, 0)]⟩ 0.95 0.4
        (some ⟨1, ⟨1, 1, 0, 1, 1/50, some 1⟩, 1000⟩)).sellPrice ≠ none := by
  norm_num [strategy, strategySuccess, calculate_coefficient,
    calculate_max_position, heldAmount, freeOf, lockOf]
  constructor <;> simp

/-- C5 (amended): every decision produced by the successful evaluation
path carries `sell_price = price + 3 * stdV`, whatever its action; only
the failure-path neutral decision lacks the key. -/
theorem c5_sell_price_amended :
    ∀ (t : String) (bal : Balance) (thr sc : ℚ) (f : Fetch),
      (strategy t bal thr sc (some f)).sellPrice =
        some (f.price + 3 * f.row.stdV) ∧
      (strategy t bal thr sc none).sellPrice = none := by
  intro t bal thr sc f
  exact ⟨rfl, rfl⟩

/-- C1: the claim that a `NaN`/zero ATR always yields action `NULL` is
false: with ATR undefined the coefficient is `0`, and `0 < threshold`
makes the SELL branch fire; here threshold `1 ≥ 0` and a held BTC balance
of `2` produce a SELL decision. -/
theorem c1_counterexample :
    (⟨1, 0, 0, 1, 1/50, none⟩ : Row).atr = none ∧ ((0:ℚ) ≤ 1) ∧
    (strategy "BTC" ⟨[("USD", 100, 0), ("BTC", 2, 0)]⟩ 1 0.4
        (some ⟨1, ⟨1, 0, 0, 1, 1/50, none⟩, 1000⟩)).action ≠ Action.NULL := by
  refine ⟨rfl, by norm_num, ?_⟩
  have hheld : heldAmount ⟨[("USD", 100, 0), ("BTC", 2, 0)]⟩ "BTC" = 2 := by
    simp [heldAmount, freeOf, lockOf]
  norm_num [strategy, strategySuccess, calculate_coefficient, hheld]
  simp

/-- C1 (amended): when the latest ATR is `NaN` or `0` the coefficient is
`0`; the decision's action is `NULL` when the threshold is `0` or the
asset's held balance is `0`, and is `SELL` with the full held balance as
amount when the threshold is positive and the held balance nonzero. -/
theorem c1_zero_atr_amended (t : String) (bal : Balance) (thr sc : ℚ)
    (f : Fetch) (hatr : f.row.atr = none ∨ f.row.atr = some 0)
    (hthr : 0 ≤ thr) :
    calculate_coefficient f.row = 0 ∧
    ((thr = 0 ∨ heldAmount bal t = 0) →
      (strategy t bal thr sc (some f)).action = Action.NULL) ∧
    (0 < thr → heldAmount bal t ≠ 0 →
      (strategy t bal thr sc (some f)).action = Action.SELL ∧
      (strategy t bal thr sc (some f)).amount = heldAmount bal t) := by
  have hc : calculate_coefficient f.row = 0 := by
    rcases hatr with h | h <;> simp [calculate_coefficient, h]
  refine ⟨hc, ?_, ?_⟩
  · rintro (h0 | h0)
    · subst h0
      norm_num [strategy, strategySuccess, hc]
    · simp only [strategy, strategySuccess, hc, h0, mul_zero, abs_zero,
        zero_div]
      split_ifs <;> first | rfl | linarith | simp_all
  · intro ht hheld
    simp [strategy, strategySuccess, hc, ht, hheld]

/-- C1 witness: the amended theorem at a concrete undefined-ATR input
with threshold `1` and held balance `2`, yielding a SELL. -/
theorem c1_zero_atr_amended_witness :
    calculate_coefficient ⟨1, 0, 0, 1, 1/50, none⟩ = 0 ∧
    (strategy "BTC" ⟨[("USD", 100, 0), ("BTC", 2, 0)]⟩ 1 0.4
        (some ⟨1, ⟨1, 0, 0, 1, 1/50, none⟩, 1000⟩)).action = Action.SELL :=
  ⟨(c1_zero_atr_amended "BTC" ⟨[("USD", 100, 0), ("BTC", 2, 0)]⟩ 1 0.4
      ⟨1, ⟨1, 0, 0, 1, 1/50, none⟩, 1000⟩ (Or.inl rfl) (by norm_num)).1,
    ((c1_zero_atr_amended "BTC" ⟨[("USD", 100, 0), ("BTC", 2, 0)]⟩ 1 0.4
        ⟨1, ⟨1, 0, 0, 1, 1/50, none⟩, 1000⟩ (Or.inl rfl) (by norm_num)).2.2
      (by norm_num)
      (by simp [heldAmount, freeOf, lockOf])).1⟩

/-- C2: the claimed invariant `amount = 0 ⟺ action = NULL` is false: when
neither the BUY nor the SELL condition holds the action stays `NULL` but
the amount keeps its initial value `|max_position * coefficient| / price`;
here coefficient `1`, threshold `0.9`, giving a NULL decision with
amount `1`. -/
theorem c2_counterexample :
    (strategy "BTC" ⟨[("USD", 10000, 0)]⟩ 0.9 0.4
        (some ⟨1, ⟨1, 1, 0, 1, 1/50, some 1⟩, 1000⟩)).action = Action.NULL ∧
    (strategy "BTC" ⟨[("USD", 10000, 0)]⟩ 0.9 0.4
        (some ⟨1, ⟨1, 1, 0, 1, 1/50, some 1⟩, 1000⟩)).amount ≠ 0 := by
  norm_num [strategy, strategySuccess, calculate_coefficient,
    calculate_max_position, heldAmount, freeOf, lockOf]

/-- C2 (amended): every decision's action is one of BUY/SELL/NULL, and
`amount = 0` forces action `NULL`; but in the no-signal band (neither
condition holds) the action is `NULL` while the amount keeps the initial
`|max_position * coefficient| / price` rather than being reset to `0`. -/
theorem c2_partition_amended :
    (∀ (t : String) (bal : Balance) (thr sc : ℚ) (fetch : Option Fetch),
      ((strategy t bal thr sc fetch).action = Action.BUY ∨
        (strategy t bal thr sc fetch).action = Action.SELL ∨
        (strategy t bal thr sc fetch).action = Action.NULL) ∧
      ((strategy t bal thr sc fetch).amount = 0 →
        (strategy t bal thr sc fetch).action = Action.NULL)) ∧
    (∀ (t : String) (bal : Balance) (thr sc : ℚ) (f : Fetch),
      ¬ calculate_coefficient f.row > thr + 0.1 →
      ¬ calculate_coefficient f.row < thr →
      (strategy t bal thr sc (some f)).action = Action.NULL ∧
      (strategy t bal thr sc (some f)).amount =
        |calculate_max_position f.row f.totalCapital 0.05 *
          calculate_coefficient f.row| / f.price) := by
  constructor
  · intro t bal thr sc fetch
    constructor
    · cases h : (strategy t bal thr sc fetch).action <;> simp
    · cases fetch with
      | none => intro _; rfl
      | some f =>
        intro h
        simp only [strategy, strategySuccess] at h ⊢
        split_ifs at h ⊢ <;> simp_all
  · intro t bal thr sc f hnb hns
    constructor
    · simp only [strategy, strategySuccess, if_neg hnb, if_neg hns]
      split_ifs <;> rfl
    · simp only [strategy, strategySuccess, if_neg hnb, if_neg hns]

/-- C2 witness: the amended theorem's no-signal clause at coefficient `1`
and threshold `0.9`: action `NULL`, amount `|max_position * 1| / 1`. -/
theorem c2_partition_amended_witness :
    (strategy "BTC" ⟨[("USD", 10000, 0)]⟩ 0.9 0.4
        (some ⟨1, ⟨1, 1, 0, 1, 1/50, some 1⟩, 1000⟩)).action = Action.NULL ∧
    (strategy "BTC" ⟨[("USD", 10000, 0)]⟩ 0.9 0.4
        (some ⟨1, ⟨1, 1, 0, 1, 1/50, some 1⟩, 1000⟩)).amount =
      |calculate_max_position ⟨1, 1, 0, 1, 1/50, some 1⟩ 1000 0.05 *
        calculate_coefficient ⟨1, 1, 0, 1, 1/50, some 1⟩| / 1 :=
  c2_partition_amended.2 "BTC" ⟨[("USD", 10000, 0)]⟩ 0.9 0.4
    ⟨1, ⟨1, 1, 0, 1, 1/50, some 1⟩, 1000⟩
    (by norm_num [calculate_coefficient])
    (by norm_num [calculate_coefficient])

/-- C6: the claimed BUY amount formula with the CAPPED coefficient is
false: the source sizes the BUY with the raw local `coefficient`
(main.py lines 325-328), while the dict's `coefficient` key was capped at
`5` (line 322).  With raw coefficient `10` the amount is `10`, not the
`5` the capped formula gives. -/
theorem c6_counterexample :
    calculate_coefficient ⟨1, 10, 0, 1, 1/50, some 1⟩ > 0 + 0.1 ∧
    (strategy "BTC" ⟨[("USD", 10000, 0)]⟩ 0 0.4
        (some ⟨1, ⟨1, 10, 0, 1, 1/50, some 1⟩, 1000⟩)).amount ≠
      min (freeOf ⟨[("USD", 10000, 0)]⟩ "USD" * 0.4 / 1)
        (|calculate_max_position ⟨1, 10, 0, 1, 1/50, some 1⟩ 1000 0.05 *
          (strategy "BTC" ⟨[("USD", 10000, 0)]⟩ 0 0.4
            (some ⟨1, ⟨1, 10, 0, 1, 1/50, some 1⟩, 1000⟩)).coefficient| /
          1) := by
  constructor <;>
    norm_num [strategy, strategySuccess, calculate_coefficient,
      calculate_max_position, heldAmount, freeOf, lockOf]

/-- C6 (amended): when the raw coefficient exceeds `threshold + 0.1` the
amount is `min(cash * safetyFraction / price, |maxPosition * rawCoef| /
price)` with the UNCAPPED coefficient, `sell_price = price + 3 * stdV`,
and the action is `BUY` unless that amount is `0`, in which case the
final override forces `NULL`. -/
theorem c6_buy_amended (t : String) (bal : Balance) (thr sc : ℚ) (f : Fetch)
    (hbuy : calculate_coefficient f.row > thr + 0.1) :
    (strategy t bal thr sc (some f)).amount =
      min (freeOf bal "USD" * sc / f.price)
        (|calculate_max_position f.row f.totalCapital 0.05 *
          calculate_coefficient f.row| / f.price) ∧
    (strategy t bal thr sc (some f)).sellPrice =
      some (f.price + 3 * f.row.stdV) ∧
    ((strategy t bal thr sc (some f)).amount ≠ 0 →
      (strategy t bal thr sc (some f)).action = Action.BUY) ∧
    ((strategy t bal thr sc (some f)).amount = 0 →
      (strategy t bal thr sc (some f)).action = Action.NULL) := by
  have hns : ¬ calculate_coefficient f.row < thr := by
    push_neg; linarith
  have hamount : (strategy t bal thr sc (some f)).amount =
      min (freeOf bal "USD" * sc / f.price)
        (|calculate_max_position f.row f.totalCapital 0.05 *
          calculate_coefficient f.row| / f.price) := by
    simp only [strategy, strategySuccess, if_neg hns, if_pos hbuy]
  refine ⟨hamount, rfl, ?_, ?_⟩
  · intro h
    simp only [strategy, strategySuccess, if_neg hns, if_pos hbuy] at h ⊢
    rw [if_neg h]
  · intro h
    simp only [strategy, strategySuccess, if_neg hns, if_pos hbuy] at h ⊢
    rw [if_pos h]

/-- C6 witness: the amended theorem at raw coefficient `10`, threshold
`0`: the BUY amount is the raw-coefficient minimum. -/
theorem c6_buy_amended_witness :
    calculate_coefficient ⟨1, 10, 0, 1, 1/50, some 1⟩ > 0 + 0.1 ∧
    (strategy "BTC" ⟨[("USD", 10000, 0)]⟩ 0 0.4
        (some ⟨1, ⟨1, 10, 0, 1, 1/50, some 1⟩, 1000⟩)).amount =
      min (freeOf ⟨[("USD", 10000, 0)]⟩ "USD" * 0.4 / 1)
        (|calculate_max_position ⟨1, 10, 0, 1, 1/50, some 1⟩ 1000 0.05 *
          calculate_coefficient ⟨1, 10, 0, 1, 1/50, some 1⟩| / 1) :=
  ⟨by norm_num [calculate_coefficient],
    (c6_buy_amended "BTC" ⟨[("USD", 10000, 0)]⟩ 0 0.4
      ⟨1, ⟨1, 10, 0, 1, 1/50, some 1⟩, 1000⟩
      (by norm_num [calculate_coefficient])).1⟩

theorem execLe_trans :
    ∀ (a b c : Decision), execLe a b → execLe b c → execLe a c := by
  intro a b c hab hbc
  cases ha : a.action <;> cases hb : b.action <;> cases hc : c.action <;>
    simp_all [execLe] <;> linarith

theorem execLe_total : ∀ (a b : Decision), execLe a b || execLe b a := by
  intro a b
  cases ha : a.action <;> cases hb : b.action <;> simp_all [execLe] <;>
    exact le_total _ _

/-- C4: the execution-order sort puts every pair in `execAfter` order:
a NULL is never followed by a non-NULL, a BUY is never followed by a
SELL, and within one action class later magnitudes are no larger. -/
theorem c4_exec_order :
    ∀ ds : List Decision, (execOrder ds).Pairwise execAfter := by
  intro ds
  have h := List.sorted_mergeSort execLe_trans execLe_total ds
  refine h.imp ?_
  intro a b hab
  refine ⟨?_, ?_, ?_⟩ <;>
    cases ha : a.action <;> cases hb : b.action <;>
      simp_all [execLe, execAfter]

/-- C3: with at least three decisions in the cycle, the next threshold is
`max(0.5, 0.95 * third-highest coefficient)` where the third-highest
coefficient is taken over the multiset of the decisions' coefficients. -/
theorem c3_threshold_recurrence :
    ∀ ds : List Decision, 3 ≤ ds.length →
      nextSellpoint ds =
        max 0.5 (0.95 * thirdHighest (ds.map (fun d => d.coefficient))) := by
  intro ds h
  have hmap : (sortByCoefDesc ds).map (fun d => d.coefficient) =
      (ds.map (fun d => d.coefficient)).mergeSort
        (fun a b => decide (b ≤ a)) :=
    List.map_mergeSort (fun a _ b _ => rfl)
  have hl : 2 < (sortByCoefDesc ds).length := by
    simp only [sortByCoefDesc, List.length_mergeSort]
    omega
  have h2 : thirdHighest (ds.map (fun d => d.coefficient)) =
      ((sortByCoefDesc ds).getD 2 (neutralDecision "")).coefficient := by
    rw [thirdHighest, ← hmap, List.getD_eq_getElem?_getD,
      List.getD_eq_getElem?_getD, List.getElem?_map,
      List.getElem?_eq_getElem hl]
    rfl
  rw [nextSellpoint, h2, mul_comm]

/-- C3 witness: three concrete decisions with coefficients 5, 3, 2: the
next threshold is `max(0.5, 0.95 * 2)`. -/
theorem c3_threshold_recurrence_witness :
    nextSellpoint
        [{ neutralDecision "A" with coefficient := 5 },
          { neutralDecision "B" with coefficient := 3 },
          { neutralDecision "C" with coefficient := 2 }] =
      max 0.5 (0.95 *
        thirdHighest
          (List.map (fun d => d.coefficient)
            [{ neutralDecision "A" with coefficient := 5 },
              { neutralDecision "B" with coefficient := 3 },
              { neutralDecision "C" with coefficient := 2 }])) :=
  c3_threshold_recurrence _ (by simp)

/-- C10: the threshold loop state: `sellpoint` is seeded at `0`, below
the `0.5` floor, every decision `strategy` can store carries a
coefficient at most `5` (capped on success, `0` on failure), and every
threshold update lands in the closed interval `[0.5, 4.75]` whenever all
stored coefficients are at most `5`. -/
theorem c10_threshold_invariant :
    initialSellpoint = 0 ∧ initialSellpoint < 0.5 ∧
    (∀ (t : String) (bal : Balance) (thr sc : ℚ) (fetch : Option Fetch),
      (strategy t bal thr sc fetch).coefficient ≤ 5) ∧
    (∀ ds : List Decision, (∀ d ∈ ds, d.coefficient ≤ 5) →
      0.5 ≤ nextSellpoint ds ∧ nextSellpoint ds ≤ 4.75) := by
  refine ⟨rfl, by norm_num [initialSellpoint], ?_, ?_⟩
  · intro t bal thr sc fetch
    cases fetch with
    | none => norm_num [strategy, neutralDecision]
    | some f =>
      simp only [strategy, strategySuccess]
      exact min_le_left _ _
  · intro ds hds
    have hcoef : ((sortByCoefDesc ds).getD 2 (neutralDecision "")).coefficient ≤ 5 := by
      by_cases h : 2 < (sortByCoefDesc ds).length
      · rw [List.getD_eq_getElem?_getD, List.getElem?_eq_getElem h]
        have hmem : (sortByCoefDesc ds)[2] ∈ sortByCoefDesc ds :=
          List.getElem_mem h
        simp only [sortByCoefDesc, List.mem_mergeSort] at hmem
        exact hds _ hmem
      · rw [List.getD_eq_getElem?_getD, List.getElem?_eq_none (by omega)]
        norm_num [neutralDecision]
    constructor
    · exact le_max_left _ _
    · apply max_le (by norm_num)
      nlinarith [hcoef]

/-- C10 witness: at three concrete decisions with coefficients 5, 3 and 2
(each at most 5), the updated threshold lies in `[0.5, 4.75]`. -/
theorem c10_threshold_invariant_witness :
    0.5 ≤ nextSellpoint
        [{ neutralDecision "A" with coefficient := 5 },
          { neutralDecision "B" with coefficient := 3 },
          { neutralDecision "C" with coefficient := 2 }] ∧
      nextSellpoint
        [{ neutralDecision "A" with coefficient := 5 },
          { neutralDecision "B" with coefficient := 3 },
          { neutralDecision "C" with coefficient := 2 }] ≤ 4.75 :=
  c10_threshold_invariant.2.2.2 _ (by norm_num [neutralDecision])

end TradingBot
